import Mathlib

/-!
Shallow embedding of `mars_j2.py` (pyCrust): interior-model deck parsing,
tabulated-model parsing, lithosphere shell location, and batch evaluation.
Python floats are modelled as rationals; numpy array reads are modelled
explicitly, with Python's negative-index wrapping and out-of-bounds
IndexError, and reads of possibly-unassigned variables raise NameError.
-/

/-- One `(radius, density)` row, both of an input deck/table entry and of
the parsed profile (the `radius`/`rho` arrays in the script). -/
structure Layer where
  radius : ℚ
  rho : ℚ
deriving DecidableEq

/-- Errors observable when running the script: the explicit RuntimeError
raised for a polynomial deck (source lines 63-65), Python's NameError for
a variable that was never assigned, and numpy's IndexError for an
out-of-range subscript. -/
inductive RunError
  | unsupportedModelFormat
  | nameError
  | indexError
deriving DecidableEq

/-- The effective position of a numpy subscript: a negative index wraps
once by adding `len(l)`. -/
def pyIndex (l : List ℚ) (i : Int) : Int :=
  if i < 0 then i + l.length else i

/-- A numpy 1-D float array read `l[i]`: a negative index wraps once by
adding `len(l)`; anything still outside `[0, len)` raises IndexError. -/
def pyGet (l : List ℚ) (i : Int) : Except RunError ℚ :=
  if 0 ≤ pyIndex l i ∧ pyIndex l i < (l.length : Int) then .ok (l.getD (pyIndex l i).toNat 0)
  else .error .indexError

/-- Reading a Python variable that may never have been assigned
(`i_core`, `i_crust`, `i_lith` are assigned only conditionally and are
loop-carried across models inside `main`): `none` raises NameError. -/
def readVar (v : Option Nat) : Except RunError Nat :=
  match v with
  | none => .error .nameError
  | some k => .ok k

/-- A deck file (source lines 59-70): the polynomial-degree flag read from
line 1 field 2, the 1-based core and crust boundary entry numbers read
from line 2 fields 2 and 3, and the `num_file` declared `(radius, rho)`
entries from lines 3 onward. -/
structure Deck where
  flag : ℚ
  coreIndexFile : Int
  crustIndexFile : Int
  entries : List Layer
deriving DecidableEq

/-- State of the deck parsing loop (source lines 72-92): the profile rows
emitted so far (`num` is `rows.length`) and the recorded core/crust
output indices, `none` while unassigned. -/
structure DeckState where
  rows : List Layer
  iCore : Option Nat
  iCrust : Option Nat
deriving DecidableEq

/-- One iteration of the deck parsing loop (source lines 84-92) on the
consecutive entry pair `(b, t)` at loop index `i`, where `iCoreFile` and
`iCrustFile` are the declared entry numbers already decremented by one.
Equal radii: record the running output index as core and/or crust marker,
emit nothing. Distinct radii: emit one row at the bottom radius with the
mean of the two densities. -/
def deckStep (iCoreFile iCrustFile : Int) (i : Nat) (b t : Layer) (s : DeckState) : DeckState :=
  if b.radius = t.radius then
    { s with
      iCore := if (i : Int) = iCoreFile then some s.rows.length else s.iCore,
      iCrust := if (i : Int) = iCrustFile then some s.rows.length else s.iCrust }
  else
    { s with rows := s.rows ++ [⟨b.radius, (t.rho + b.rho) / 2⟩] }

/-- The deck parsing loop `for i in range(0, num_file-1)` (source lines
76-92), walking consecutive entry pairs; `b` is the bottom entry of the
current pair and the returned `Layer` is the last top entry read
(`rt`, `rhot`), needed after the loop. -/
def deckLoopGo (iCoreFile iCrustFile : Int) : Nat → Layer → List Layer → DeckState → DeckState × Layer
  | _, b, [], s => (s, b)
  | i, b, t :: rest, s =>
      deckLoopGo iCoreFile iCrustFile (i + 1) t rest (deckStep iCoreFile iCrustFile i b t s)

/-- Result of parsing one deck: the profile rows (radius strictly
increasing for well-formed decks, last density 0) and the recorded
core/crust indices, `none` when their markers never matched. -/
structure DeckResult where
  rows : List Layer
  iCore : Option Nat
  iCrust : Option Nat
deriving DecidableEq

/-- Deck parsing (source lines 62-100): reject a polynomial flag distinct
from 1 (lines 63-65), run the pair loop, then append one final row at the
last-seen top radius with density forced to 0 (lines 94-96). With fewer
than two entries the loop never runs and `rt` is unassigned, so the
append at line 94 raises NameError. -/
def deckParse (d : Deck) : Except RunError DeckResult :=
  if d.flag ≠ 1 then .error .unsupportedModelFormat
  else
    match d.entries with
    | e0 :: e1 :: rest =>
        let p := deckLoopGo (d.coreIndexFile - 1) (d.crustIndexFile - 1) 0 e0 (e1 :: rest)
          ⟨[], none, none⟩
        .ok ⟨p.1.rows ++ [⟨p.2.radius, 0⟩], p.1.iCore, p.1.iCrust⟩
    | _ => .error .nameError

/-- Outcome of the lithosphere locating loop (source lines 103-113 and
164-174): `found i` means the loop broke having assigned `i_lith = i`;
`noBreak` means the loop ran to completion without assigning anything;
`indexError` means the read of `radius[i+1]` at the final index went past
the end of the array. -/
inductive LocateOutcome
  | found (i : Nat)
  | noBreak
  | indexError
deriving DecidableEq

/-- The locating loop body, scanning the suffix of the radius array that
starts at index `i`. At the final index the guard `radius[i] <= target`
short-circuits; when it holds, the read `radius[i+1]` is out of bounds.
On a bracketing pair the index is chosen by the source's tie-break:
`i` if `radius[i] == target`, else `i` if
`target - radius[i] <= radius[i+1] - target`, else `i+1`. -/
def locateGo (target : ℚ) : Nat → List ℚ → LocateOutcome
  | _, [] => .noBreak
  | _, [r] => if r ≤ target then .indexError else .noBreak
  | i, r :: r' :: rest =>
      if r ≤ target then
        if r' > target then
          .found (if r = target then i else if target - r ≤ r' - target then i else i + 1)
        else locateGo target (i + 1) (r' :: rest)
      else locateGo target (i + 1) (r' :: rest)

/-- The lithosphere locating loop over a whole radius array. -/
def locate (radius : List ℚ) (target : ℚ) : LocateOutcome :=
  locateGo target 0 radius

/-- The `i_core` / `i_crust` / `i_lith` variables of `main`, loop-carried
across models because `main` never resets them between iterations. -/
structure Carry where
  iCore : Option Nat
  iCrust : Option Nat
  iLith : Option Nat
deriving DecidableEq

/-- Processing of one deck model inside the first batch loop (source
lines 57-132): parse, locate (updating `i_lith` only when the loop
breaks), then the reads of lines 115-124 in program order —
`rho[i_crust-1]`, `rho[i_core-1]`, `radius[i_crust]`, `radius[i_core]`,
`radius[i_lith]` — and finally the external `HydrostaticShapeLith` call
and percentage computation, abstracted as `f`. Returns the updated
carried variables and the printed percentage. -/
def deckModelStep (dLith : ℚ) (f : List Layer → Nat → ℚ) (c : Carry) (d : Deck) :
    Except RunError (Carry × ℚ) :=
  match deckParse d with
  | .error e => .error e
  | .ok res =>
    let radii := res.rows.map Layer.radius
    let rhos := res.rows.map Layer.rho
    let r0 := radii.getLast?.getD 0
    match locate radii (r0 - dLith) with
    | .indexError => .error .indexError
    | out =>
      let iLithOpt := match out with
        | .found i => some i
        | _ => c.iLith
      let iCoreOpt := res.iCore <|> c.iCore
      let iCrustOpt := res.iCrust <|> c.iCrust
      match readVar iCrustOpt with
      | .error e => .error e
      | .ok iCrust =>
        match pyGet rhos ((iCrust : Int) - 1) with
        | .error e => .error e
        | .ok _rhoMantle =>
          match readVar iCoreOpt with
          | .error e => .error e
          | .ok iCore =>
            match pyGet rhos ((iCore : Int) - 1) with
            | .error e => .error e
            | .ok _rhoCore =>
              match pyGet radii (iCrust : Int) with
              | .error e => .error e
              | .ok _ =>
                match pyGet radii (iCore : Int) with
                | .error e => .error e
                | .ok _ =>
                  match readVar iLithOpt with
                  | .error e => .error e
                  | .ok iLith =>
                    match pyGet radii (iLith : Int) with
                    | .error e => .error e
                    | .ok _ => .ok (⟨iCoreOpt, iCrustOpt, some iLith⟩, f res.rows iLith)

/-- The first batch loop of `main` (source lines 57-132) over deck files:
any error aborts the whole batch. -/
def deckBatch (dLith : ℚ) (f : List Layer → Nat → ℚ) : Carry → List Deck → Except RunError Carry
  | c, [] => .ok c
  | c, d :: ds =>
      match deckModelStep dLith f c d with
      | .error e => .error e
      | .ok (c', _) => deckBatch dLith f c' ds

/-- The tabulated parser's transformation (source lines 153-158 and
176-177): rows are copied verbatim and the density of the final row is
overwritten with 0. -/
def zeroLast : List Layer → List Layer
  | [] => []
  | [l] => [⟨l.radius, 0⟩]
  | l :: l' :: rest => l :: zeroLast (l' :: rest)

/-- The tabulated parser (source lines 149-158, 176-177): copy the data
rows, then force the last density to 0; an empty table makes the
`radius[num-1]` read fail, modelled as `none`. -/
def tabParse (rows : List Layer) : Option (List Layer) :=
  match rows with
  | [] => none
  | _ => some (zeroLast rows)

/-- State of the second batch loop: the loop-carried `i_lith` plus the
`pmin` / `pmax` accumulators initialised to 100 and 0 (source lines
141-142). -/
structure TabState where
  iLith : Option Nat
  pmin : ℚ
  pmax : ℚ
deriving DecidableEq

/-- Processing of one tabulated model inside the second batch loop
(source lines 144-195): read `r0_model = radius[num-1]`, run the locating
loop (updating `i_lith` only on break), zero the last density, read
`radius[i_lith]` (line 182), call the external collaborator `f` for the
percentage, and update the running min/max exactly as lines 192-195 do. -/
def tabStep (dLith : ℚ) (f : List Layer → Nat → ℚ) (s : TabState) (rows : List Layer) :
    Except RunError TabState :=
  match rows.getLast? with
  | none => .error .indexError
  | some last =>
      let radii := rows.map Layer.radius
      match locate radii (last.radius - dLith) with
      | .indexError => .error .indexError
      | out =>
          let iLithOpt := match out with
            | .found i => some i
            | _ => s.iLith
          match iLithOpt with
          | none => .error .nameError
          | some il =>
              match pyGet radii (il : Int) with
              | .error e => .error e
              | .ok _ =>
                  let p := f (zeroLast rows) il
                  .ok ⟨some il,
                    if p < s.pmin then p else s.pmin,
                    if p > s.pmax then p else s.pmax⟩

/-- The second batch loop of `main` (source lines 144-197). -/
def tabBatch (dLith : ℚ) (f : List Layer → Nat → ℚ) : TabState → List (List Layer) → Except RunError TabState
  | s, [] => .ok s
  | s, m :: ms =>
      match tabStep dLith f s m with
      | .error e => .error e
      | .ok s' => tabBatch dLith f s' ms

/-- The batch evaluator over tabulated models, started from the source's
initial accumulators `pmin = 100`, `pmax = 0` and an unassigned
`i_lith`. -/
def evaluate (dLith : ℚ) (f : List Layer → Nat → ℚ) (models : List (List Layer)) :
    Except RunError TabState :=
  tabBatch dLith f ⟨none, 100, 0⟩ models

/-- The index the locating loop assigns for a tabulated model, when it
assigns one. -/
def locateFound (dLith : ℚ) (rows : List Layer) : Option Nat :=
  match rows.getLast? with
  | none => none
  | some last =>
      match locate (rows.map Layer.radius) (last.radius - dLith) with
      | .found i => some i
      | _ => none

/-- The percentage the external collaborator returns for one tabulated
model, as a function of the model alone (its zeroed rows and its own
located index). -/
def percentOf (dLith : ℚ) (f : List Layer → Nat → ℚ) (rows : List Layer) : ℚ :=
  f (zeroLast rows) ((locateFound dLith rows).getD 0)

/-! ### Lemmas about the locating loop -/

/-- Any index assigned by the locating loop lies inside the radius array. -/
lemma locateGo_found_lt (target : ℚ) :
    ∀ (l : List ℚ) (i0 k : Nat), locateGo target i0 l = .found k → k < i0 + l.length
  | [], i0, k, h => by simp [locateGo] at h
  | [r], i0, k, h => by
      simp only [locateGo] at h
      split at h <;> exact LocateOutcome.noConfusion h
  | r :: r' :: rest, i0, k, h => by
      simp only [locateGo] at h
      by_cases h1 : r ≤ target
      · rw [if_pos h1] at h
        by_cases h2 : r' > target
        · rw [if_pos h2] at h
          injection h with h
          subst h
          simp only [List.length_cons]
          split
          · omega
          · split <;> omega
        · rw [if_neg h2] at h
          have := locateGo_found_lt target (r' :: rest) (i0 + 1) k h
          simp only [List.length_cons] at this ⊢
          omega
      · rw [if_neg h1] at h
        have := locateGo_found_lt target (r' :: rest) (i0 + 1) k h
        simp only [List.length_cons] at this ⊢
        omega

/-- The locating loop breaks at the first bracketing pair and applies the
source's tie-break rule there. -/
lemma locateGo_first_bracket (target : ℚ) :
    ∀ (l : List ℚ) (i0 j : Nat),
      j + 1 < l.length →
      l.getD j 0 ≤ target → target < l.getD (j + 1) 0 →
      (∀ k, k < j → ¬(l.getD k 0 ≤ target ∧ target < l.getD (k + 1) 0)) →
      locateGo target i0 l =
        .found (if l.getD j 0 = target then i0 + j
          else if target - l.getD j 0 ≤ l.getD (j + 1) 0 - target then i0 + j else i0 + j + 1)
  | [], _, j, hlen, _, _, _ => by simp at hlen
  | [r], _, j, hlen, _, _, _ => by
      simp only [List.length_cons, List.length_nil] at hlen
      omega
  | r :: r' :: rest, i0, 0, hlen, hlo, hhi, hmin => by
      simp only [List.getD_cons_zero, List.getD_cons_succ] at hlo hhi
      simp only [locateGo, if_pos hlo, if_pos hhi]
      simp
  | r :: r' :: rest, i0, jj + 1, hlen, hlo, hhi, hmin => by
      have h0 : ¬(r ≤ target ∧ target < r') := by
        have := hmin 0 (Nat.succ_pos jj)
        simpa using this
      have hlen' : jj + 1 < (r' :: rest).length := by
        simp at hlen ⊢; omega
      have hlo' : (r' :: rest).getD jj 0 ≤ target := by
        simpa using hlo
      have hhi' : target < (r' :: rest).getD (jj + 1) 0 := by
        simpa using hhi
      have hmin' : ∀ k, k < jj → ¬((r' :: rest).getD k 0 ≤ target ∧
          target < (r' :: rest).getD (k + 1) 0) := by
        intro k hk
        have := hmin (k + 1) (by omega)
        simpa using this
      have hrec := locateGo_first_bracket target (r' :: rest) (i0 + 1) jj hlen' hlo' hhi' hmin'
      have e1 : i0 + 1 + jj = i0 + (jj + 1) := by omega
      rw [e1] at hrec
      simp only [locateGo]
      by_cases h1 : r ≤ target
      · have h2 : ¬ r' > target := fun hgt => h0 ⟨h1, hgt⟩
        rw [if_pos h1, if_neg h2]
        simpa using hrec
      · rw [if_neg h1]
        simpa using hrec

/-- C1: on a profile with strictly increasing radii, whenever a
bracketing pair exists the locating loop scans consecutive radius pairs
in increasing order, stops at the first pair with
`radius[j] <= target < radius[j+1]`, and returns `j` when
`radius[j] == target`, `j` when `target - radius[j] <= radius[j+1] - target`,
and `j+1` otherwise. -/
theorem c1_locate_first_bracket (radius : List ℚ) (target : ℚ) (j : Nat)
    (_hmono : List.Chain' (· < ·) radius)
    (hlen : j + 1 < radius.length)
    (hlo : radius.getD j 0 ≤ target) (hhi : target < radius.getD (j + 1) 0)
    (hfirst : ∀ k, k < j → ¬(radius.getD k 0 ≤ target ∧ target < radius.getD (k + 1) 0)) :
    locate radius target =
      .found (if radius.getD j 0 = target then j
        else if target - radius.getD j 0 ≤ radius.getD (j + 1) 0 - target then j else j + 1) := by
  have h := locateGo_first_bracket target radius 0 j hlen hlo hhi hfirst
  simpa [locate] using h

/-- Witness for C1: on the profile with radii `[0, 10, 20, 30]` and
target `15` (an exact tie, `15 - 10 == 20 - 15`) the loop assigns
index 1. -/
theorem c1_locate_first_bracket_witness :
    locate [0, 10, 20, 30] 15 = .found 1 := by
  have h := c1_locate_first_bracket [0, 10, 20, 30] 15 1
    (by norm_num [List.chain'_cons, List.chain'_singleton]) (by decide) (by decide)
    (by decide) (by decide)
  rw [h]
  norm_num

/-- When no bracketing pair exists the locating loop runs to its final
index: there the guard `radius[n] <= target` either fails (the loop ends
without assigning anything) or triggers the out-of-bounds read of
`radius[n+1]`. -/
lemma locateGo_no_bracket (target : ℚ) :
    ∀ (l : List ℚ) (i0 : Nat), l ≠ [] →
      (∀ k, k + 1 < l.length → ¬(l.getD k 0 ≤ target ∧ target < l.getD (k + 1) 0)) →
      locateGo target i0 l = (if l.getLast?.getD 0 ≤ target then .indexError else .noBreak)
  | [], _, hne, _ => absurd rfl hne
  | [r], _, _, _ => by simp [locateGo]
  | r :: r' :: rest, i0, _, hnb => by
      have h0 : ¬(r ≤ target ∧ target < r') := by
        have := hnb 0 (by simp)
        simpa using this
      have hrec := locateGo_no_bracket target (r' :: rest) (i0 + 1) (by simp) (fun k hk => by
        have := hnb (k + 1) (by simp only [List.length_cons] at hk ⊢; omega)
        simpa using this)
      simp only [locateGo]
      rw [List.getLast?_cons_cons]
      by_cases h1 : r ≤ target
      · have h2 : ¬ r' > target := fun hgt => h0 ⟨h1, hgt⟩
        rw [if_pos h1, if_neg h2, hrec]
      · rw [if_neg h1, hrec]

/-- When the last radius exceeds the target, the final-index guard fails
and the loop never reads past the end of the array. -/
lemma locateGo_ne_indexError (target : ℚ) :
    ∀ (l : List ℚ) (i0 : Nat), target < l.getLast?.getD 0 →
      locateGo target i0 l ≠ .indexError
  | [], _, _ => by simp [locateGo]
  | [r], _, hlt => by
      simp only [List.getLast?_singleton, Option.getD_some] at hlt
      simp [locateGo, not_le.mpr hlt]
  | r :: r' :: rest, i0, hlt => by
      have hlt' : target < (r' :: rest).getLast?.getD 0 := by
        simpa [List.getLast?_cons_cons] using hlt
      have hrec := locateGo_ne_indexError target (r' :: rest) (i0 + 1) hlt'
      simp only [locateGo]
      by_cases h1 : r ≤ target
      · by_cases h2 : r' > target
        · rw [if_pos h1, if_pos h2]
          exact fun hc => LocateOutcome.noConfusion hc
        · rw [if_pos h1, if_neg h2]
          exact hrec
      · rw [if_neg h1]
        exact hrec

/-- On a strictly increasing list every entry is at most the last one. -/
lemma chain'_lt_getD_le_getLast :
    ∀ (l : List ℚ), List.Chain' (· < ·) l → ∀ k, k < l.length →
      l.getD k 0 ≤ l.getLast?.getD 0
  | [], _, k, hk => by simp at hk
  | [r], _, k, hk => by
      simp only [List.length_cons, List.length_nil] at hk
      have hk0 : k = 0 := by omega
      subst hk0
      simp
  | r :: r' :: rest, hm, 0, _ => by
      rw [List.chain'_cons] at hm
      have h2 := chain'_lt_getD_le_getLast (r' :: rest) hm.2 0 (by simp)
      simp only [List.getD_cons_zero] at h2 ⊢
      rw [List.getLast?_cons_cons]
      exact le_trans (le_of_lt hm.1) h2
  | r :: r' :: rest, hm, k + 1, hk => by
      rw [List.chain'_cons] at hm
      have h2 := chain'_lt_getD_le_getLast (r' :: rest) hm.2 k
        (by simp only [List.length_cons] at hk ⊢; omega)
      simp only [List.getD_cons_succ]
      rw [List.getLast?_cons_cons]
      exact h2

/-- C4 (amended): when no bracketing pair exists, the code raises no
LithosphereDepthOutOfRange error — no such error exists in the script.
The locating loop simply ends without assigning an index (`noBreak`)
whenever the last radius exceeds the target, dies on the out-of-bounds
read at the final index otherwise, and in no case produces an index; the
unassigned index is only noticed downstream (NameError on a first model,
silent reuse of a stale index on later models). -/
theorem c4_no_bracket_no_error (radius : List ℚ) (target : ℚ)
    (hne : radius ≠ [])
    (hnb : ∀ k, k < radius.length - 1 →
      ¬(radius.getD k 0 ≤ target ∧ target < radius.getD (k + 1) 0)) :
    locate radius target =
      (if radius.getLast?.getD 0 ≤ target then .indexError else .noBreak) ∧
    ∀ i, locate radius target ≠ .found i := by
  have h := locateGo_no_bracket target radius 0 hne (fun k hk => hnb k (by omega))
  refine ⟨h, fun i => ?_⟩
  show locateGo target 0 radius ≠ .found i
  rw [h]
  split <;> exact fun hc => LocateOutcome.noConfusion hc

/-- A tabulated model whose radii `[0, 10, 20, 30]` bracket the target
depth for lithosphere thickness 15 (located index 1). -/
def modelA : List Layer := [⟨0, 3000⟩, ⟨10, 3000⟩, ⟨20, 3000⟩, ⟨30, 2900⟩]

/-- A tabulated model whose radii `[20, 30]` admit no bracketing pair for
lithosphere thickness 15: the target depth 15 lies below the first
radius. -/
def modelB : List Layer := [⟨20, 3000⟩, ⟨30, 2900⟩]

/-- Counterexample to C4 as stated: on a batch whose second model admits
no bracketing pair, the locating loop assigns nothing, yet the batch
evaluator completes successfully (reusing the first model's index) —
nothing fails with LithosphereDepthOutOfRange, an error the script does
not define. -/
theorem c4_counterexample :
    locateFound 15 modelB = none ∧
    evaluate 15 (fun _ _ => 50) [modelA, modelB] = .ok ⟨some 1, 50, 50⟩ := by
  constructor
  · norm_num [locateFound, locate, locateGo, modelB]
  · norm_num [evaluate, tabBatch, tabStep, locate, locateGo, zeroLast, pyGet, pyIndex,
      modelA, modelB]

/-- Witness for C4 (amended): a lithosphere thickness of 40, larger than
the surface radius 30, makes the loop end without assigning an index and
without any error. -/
theorem c4_no_bracket_no_error_witness :
    locate [0, 10, 20, 30] (30 - 40) = .noBreak ∧
    ∀ i, locate [0, 10, 20, 30] (30 - 40) ≠ .found i := by
  have h := c4_no_bracket_no_error [0, 10, 20, 30] (30 - 40) (by decide)
    (by intro k hk
        norm_num [List.length_cons] at hk
        interval_cases k <;> norm_num [List.getD_cons_zero, List.getD_cons_succ])
  refine ⟨?_, h.2⟩
  rw [h.1]
  have e : ([0, 10, 20, 30] : List ℚ).getLast?.getD 0 = 30 := rfl
  rw [e]
  norm_num

/-- C10: with strictly increasing radii, for positive lithosphere
thickness the final-index guard `radius[i] <= target` fails at the last
index because the target is strictly below the surface radius, so the
loop never reads `radius[n+1]`; for thickness at most 0 the guard holds
at the final index and the out-of-bounds read is reached. -/
theorem c10_scan_bounds (radius : List ℚ) (d : ℚ)
    (hne : radius ≠ []) (hmono : List.Chain' (· < ·) radius) :
    (0 < d → locate radius (radius.getLast?.getD 0 - d) ≠ .indexError) ∧
    (d ≤ 0 → locate radius (radius.getLast?.getD 0 - d) = .indexError) := by
  constructor
  · intro hd
    apply locateGo_ne_indexError
    linarith
  · intro hd
    have hnb : ∀ k, k + 1 < radius.length →
        ¬(radius.getD k 0 ≤ radius.getLast?.getD 0 - d ∧
          radius.getLast?.getD 0 - d < radius.getD (k + 1) 0) := by
      intro k hk hc
      have hle := chain'_lt_getD_le_getLast radius hmono (k + 1) hk
      linarith [hc.2]
    have h := locateGo_no_bracket (radius.getLast?.getD 0 - d) radius 0 hne hnb
    show locateGo _ 0 radius = _
    rw [h, if_pos (by linarith)]

/-- Witness for C10: on radii `[0, 10, 20, 30]`, thickness 15 stays in
bounds while thickness -1 reaches the out-of-bounds read. -/
theorem c10_scan_bounds_witness :
    locate [0, 10, 20, 30] (30 - 15) ≠ .indexError ∧
    locate [0, 10, 20, 30] (30 - (-1)) = .indexError := by
  have hmono : List.Chain' (· < ·) ([0, 10, 20, 30] : List ℚ) := by
    norm_num [List.chain'_cons, List.chain'_singleton]
  have e : ([0, 10, 20, 30] : List ℚ).getLast?.getD 0 = 30 := rfl
  have h1 := (c10_scan_bounds [0, 10, 20, 30] 15 (by decide) hmono).1 (by norm_num)
  have h2 := (c10_scan_bounds [0, 10, 20, 30] (-1) (by decide) hmono).2 (by norm_num)
  rw [e] at h1 h2
  exact ⟨h1, h2⟩

/-! ### Deck parsing: claims C2, C6 -/

/-- A minimal synthetic deck: a boundary pair (entries 0 and 1 share
radius 1000) followed by one layer pair, with declared crust entry
number 1 marking the boundary and a declared core entry number 0 that
matches nothing. -/
def minimalDeck : Deck :=
  ⟨1, 0, 1, [⟨1000, 7000⟩, ⟨1000, 5000⟩, ⟨2000, 3000⟩]⟩

/-- C2: each loop iteration on pair `(b, t)` at index `i` either (equal
radii) emits no row and records the current output index as core and/or
crust marker exactly when `i` equals the declared entry number minus one,
or (distinct radii) emits exactly one row at the bottom radius with the
arithmetic mean of the two densities, advancing the output index; and on
the minimal one-boundary, one-layer deck the parser produces a 2-row
profile whose terminal row has density 0. -/
theorem c2_deck_step (cf kf : Int) (i : Nat) (b t : Layer) (s : DeckState) :
    (b.radius = t.radius →
      deckStep (cf - 1) (kf - 1) i b t s =
        ⟨s.rows,
          if (i : Int) = cf - 1 then some s.rows.length else s.iCore,
          if (i : Int) = kf - 1 then some s.rows.length else s.iCrust⟩) ∧
    (b.radius ≠ t.radius →
      deckStep (cf - 1) (kf - 1) i b t s =
        ⟨s.rows ++ [⟨b.radius, (t.rho + b.rho) / 2⟩], s.iCore, s.iCrust⟩) ∧
    deckParse minimalDeck = .ok ⟨[⟨1000, 4000⟩, ⟨2000, 0⟩], none, some 0⟩ := by
  refine ⟨fun he => ?_, fun hne => ?_, ?_⟩
  · rw [deckStep, if_pos he]
  · rw [deckStep, if_neg hne]
  · norm_num [deckParse, deckLoopGo, deckStep, minimalDeck]

/-- Witness for C2: both loop cases at concrete inputs — the boundary
pair of the minimal deck records crust index 0, and its layer pair emits
the mean-density row. -/
theorem c2_deck_step_witness :
    deckStep (1 - 1) (5 - 1) 0 ⟨1000, 7000⟩ ⟨1000, 5000⟩ ⟨[], none, none⟩ =
      ⟨[], some 0, none⟩ ∧
    deckStep (1 - 1) (5 - 1) 1 ⟨1000, 5000⟩ ⟨2000, 3000⟩ ⟨[], some 0, none⟩ =
      ⟨[⟨1000, 4000⟩], some 0, none⟩ := by
  constructor
  · have h := (c2_deck_step 1 5 0 ⟨1000, 7000⟩ ⟨1000, 5000⟩ ⟨[], none, none⟩).1 rfl
    rw [h]
    norm_num
  · have h := (c2_deck_step 1 5 1 ⟨1000, 5000⟩ ⟨2000, 3000⟩ ⟨[], some 0, none⟩).2.1
      (by norm_num)
    rw [h]
    norm_num

/-- C6: a deck whose line-1 field at index 2 differs from 1 fails with
the unsupported-format error, the batch evaluator then performs no
further model processing (fail-fast), and for a flag equal to 1 this
error is never raised. -/
theorem c6_polynomial_flag :
    (∀ d : Deck, d.flag ≠ 1 → deckParse d = .error .unsupportedModelFormat) ∧
    (∀ (dLith : ℚ) (f : List Layer → Nat → ℚ) (c : Carry) (d : Deck) (ds : List Deck),
      d.flag ≠ 1 → deckBatch dLith f c (d :: ds) = .error .unsupportedModelFormat) ∧
    (∀ d : Deck, d.flag = 1 → deckParse d ≠ .error .unsupportedModelFormat) := by
  have hparse : ∀ d : Deck, d.flag ≠ 1 → deckParse d = .error .unsupportedModelFormat := by
    intro d hd
    rw [deckParse, if_pos hd]
  refine ⟨hparse, ?_, ?_⟩
  · intro dLith f c d ds hd
    have hstep : deckModelStep dLith f c d = .error .unsupportedModelFormat := by
      rw [deckModelStep, hparse d hd]
    simp only [deckBatch]
    rw [hstep]
  · intro d hd hc
    rw [deckParse, if_neg (fun hne => hne hd)] at hc
    cases he : d.entries with
    | nil => rw [he] at hc; exact RunError.noConfusion (Except.error.inj hc)
    | cons e0 tl =>
      cases tl with
      | nil => rw [he] at hc; exact RunError.noConfusion (Except.error.inj hc)
      | cons e1 rest => rw [he] at hc; exact Except.noConfusion hc

/-- A deck whose polynomial flag is 0. -/
def polyDeck : Deck := ⟨0, 2, 3, [⟨1000, 7000⟩, ⟨1000, 5000⟩, ⟨2000, 3000⟩]⟩

/-- Witness for C6: the flag-0 deck aborts the batch immediately, and the
flag-1 minimal deck never raises the unsupported-format error. -/
theorem c6_polynomial_flag_witness :
    deckParse polyDeck = .error .unsupportedModelFormat ∧
    deckBatch 15 (fun _ _ => 0) ⟨none, none, none⟩ [polyDeck, minimalDeck] =
      .error .unsupportedModelFormat ∧
    deckParse minimalDeck ≠ .error .unsupportedModelFormat :=
  ⟨c6_polynomial_flag.1 polyDeck (by norm_num [polyDeck]),
   c6_polynomial_flag.2.1 15 (fun _ _ => 0) ⟨none, none, none⟩ polyDeck [minimalDeck]
     (by norm_num [polyDeck]),
   c6_polynomial_flag.2.2 minimalDeck rfl⟩

/-! ### Profile invariants: claim C3 -/

/-- Appending a strict upper bound keeps a list strictly increasing. -/
lemma chain'_lt_append_singleton (l : List ℚ) (x : ℚ)
    (h : List.Chain' (· < ·) l) (hall : ∀ r ∈ l, r < x) :
    List.Chain' (· < ·) (l ++ [x]) := by
  rw [List.chain'_append]
  refine ⟨h, List.chain'_singleton x, ?_⟩
  intro a ha b hb
  simp only [List.head?_cons, Option.mem_def, Option.some.injEq] at hb
  subst hb
  exact hall a (List.mem_of_mem_getLast? ha)

/-- Through the deck parsing loop, with non-decreasing entry radii, the
emitted rows stay strictly increasing and strictly below the radius of
the current bottom entry (hence of the final top entry). -/
lemma deckLoopGo_mono (cf kf : Int) :
    ∀ (rest : List Layer) (b : Layer) (i0 : Nat) (s : DeckState),
      List.Chain' (· ≤ ·) (b.radius :: rest.map Layer.radius) →
      List.Chain' (· < ·) (s.rows.map Layer.radius) →
      (∀ r ∈ s.rows.map Layer.radius, r < b.radius) →
      List.Chain' (· < ·) ((deckLoopGo cf kf i0 b rest s).1.rows.map Layer.radius) ∧
      (∀ r ∈ (deckLoopGo cf kf i0 b rest s).1.rows.map Layer.radius,
        r < (deckLoopGo cf kf i0 b rest s).2.radius)
  | [], _, _, s, _, hc, hb => by
      simp only [deckLoopGo]
      exact ⟨hc, hb⟩
  | t :: rest, b, i0, s, hle, hc, hb => by
      rw [List.map_cons, List.chain'_cons] at hle
      simp only [deckLoopGo]
      by_cases he : b.radius = t.radius
      · have hstep : (deckStep cf kf i0 b t s).rows = s.rows := by
          rw [deckStep, if_pos he]
        refine deckLoopGo_mono cf kf rest t (i0 + 1) _ hle.2 ?_ ?_
        · rw [hstep]; exact hc
        · rw [hstep]
          intro r hr
          exact he ▸ hb r hr
      · have hbt : b.radius < t.radius := lt_of_le_of_ne hle.1 he
        have hstep : (deckStep cf kf i0 b t s).rows
            = s.rows ++ [⟨b.radius, (t.rho + b.rho) / 2⟩] := by
          rw [deckStep, if_neg he]
        refine deckLoopGo_mono cf kf rest t (i0 + 1) _ hle.2 ?_ ?_
        · rw [hstep, List.map_append]
          simp only [List.map_cons, List.map_nil]
          exact chain'_lt_append_singleton _ _ hc hb
        · rw [hstep, List.map_append]
          simp only [List.map_cons, List.map_nil]
          intro r hr
          rcases List.mem_append.mp hr with hmem | hmem
          · exact (hb r hmem).trans hbt
          · simp only [List.mem_singleton] at hmem
            subst hmem
            exact hbt

/-- The last top entry returned by the deck parsing loop is the last
input entry. -/
lemma deckLoopGo_snd (cf kf : Int) :
    ∀ (rest : List Layer) (b : Layer) (i0 : Nat) (s : DeckState),
      some (deckLoopGo cf kf i0 b rest s).2 = (b :: rest).getLast?
  | [], b, _, s => by simp [deckLoopGo]
  | t :: rest, b, i0, s => by
      simp only [deckLoopGo]
      rw [List.getLast?_cons_cons]
      exact deckLoopGo_snd cf kf rest t (i0 + 1) _

/-- `zeroLast` rewrites only the final density, never a radius. -/
lemma zeroLast_map_radius :
    ∀ l : List Layer, (zeroLast l).map Layer.radius = l.map Layer.radius
  | [] => rfl
  | [_] => rfl
  | a :: b :: rest => by
      simp only [zeroLast, List.map_cons]
      rw [show (zeroLast (b :: rest)).map Layer.radius = (b :: rest).map Layer.radius from
        zeroLast_map_radius (b :: rest)]
      simp

/-- `zeroLast` of a nonempty list is nonempty. -/
lemma zeroLast_ne_nil : ∀ (l : List Layer), l ≠ [] → zeroLast l ≠ []
  | [], h => absurd rfl h
  | [_], _ => by simp [zeroLast]
  | _ :: _ :: _, _ => by simp [zeroLast]

/-- The head of a cons is dropped by `getLast?` when the tail is
nonempty. -/
lemma getLast?_cons_ne_nil {α : Type} (x : α) :
    ∀ (l : List α), l ≠ [] → (x :: l).getLast? = l.getLast?
  | [], h => absurd rfl h
  | _ :: _, _ => List.getLast?_cons_cons ..

/-- After `zeroLast`, the final density is 0. -/
lemma zeroLast_last_rho : ∀ (l : List Layer), l ≠ [] →
    ((zeroLast l).map Layer.rho).getLast? = some 0
  | [], h => absurd rfl h
  | [_], _ => by simp [zeroLast]
  | a :: b :: rest, _ => by
      have ih := zeroLast_last_rho (b :: rest) (List.cons_ne_nil b rest)
      simp only [zeroLast, List.map_cons]
      rw [getLast?_cons_ne_nil]
      · exact ih
      · intro hc
        exact zeroLast_ne_nil (b :: rest) (List.cons_ne_nil b rest) (List.map_eq_nil_iff.mp hc)

/-- C3: for valid inputs both parsers yield a profile with strictly
increasing radii whose final row carries density exactly 0 — the deck
parser appends one row at the last-seen top radius with density 0, and
the tabulated parser overwrites the density of its last copied row
with 0. -/
theorem c3_profile_invariants :
    (∀ d : Deck, d.flag = 1 → 2 ≤ d.entries.length →
      List.Chain' (· ≤ ·) (d.entries.map Layer.radius) →
      ∃ res, deckParse d = .ok res ∧
        List.Chain' (· < ·) (res.rows.map Layer.radius) ∧
        res.rows.getLast? = d.entries.getLast?.map (fun e => ⟨e.radius, 0⟩)) ∧
    (∀ rows : List Layer, rows ≠ [] →
      List.Chain' (· < ·) (rows.map Layer.radius) →
      ∃ out, tabParse rows = some out ∧
        List.Chain' (· < ·) (out.map Layer.radius) ∧
        (out.map Layer.rho).getLast? = some 0) := by
  constructor
  · rintro ⟨flag, cf, kf, entries⟩ hflag hlen hchain
    simp only at hflag hlen hchain
    match entries, hlen, hchain with
    | e0 :: e1 :: rest, _, hchain =>
      refine ⟨⟨(deckLoopGo (cf - 1) (kf - 1) 0 e0 (e1 :: rest) ⟨[], none, none⟩).1.rows
          ++ [⟨(deckLoopGo (cf - 1) (kf - 1) 0 e0 (e1 :: rest) ⟨[], none, none⟩).2.radius, 0⟩],
        (deckLoopGo (cf - 1) (kf - 1) 0 e0 (e1 :: rest) ⟨[], none, none⟩).1.iCore,
        (deckLoopGo (cf - 1) (kf - 1) 0 e0 (e1 :: rest) ⟨[], none, none⟩).1.iCrust⟩, ?_, ?_, ?_⟩
      · rw [deckParse, if_neg (fun hne => hne hflag)]
      · show List.Chain' (· < ·)
          (((deckLoopGo (cf - 1) (kf - 1) 0 e0 (e1 :: rest) ⟨[], none, none⟩).1.rows
            ++ [(⟨(deckLoopGo (cf - 1) (kf - 1) 0 e0 (e1 :: rest) ⟨[], none, none⟩).2.radius, 0⟩
              : Layer)]).map Layer.radius)
        rw [List.map_append]
        simp only [List.map_cons, List.map_nil]
        have hm := deckLoopGo_mono (cf - 1) (kf - 1) (e1 :: rest) e0 0 ⟨[], none, none⟩
          (by simpa using hchain) (by simp) (by simp)
        exact chain'_lt_append_singleton _ _ hm.1 hm.2
      · show ((deckLoopGo (cf - 1) (kf - 1) 0 e0 (e1 :: rest) ⟨[], none, none⟩).1.rows
            ++ [(⟨(deckLoopGo (cf - 1) (kf - 1) 0 e0 (e1 :: rest) ⟨[], none, none⟩).2.radius, 0⟩
              : Layer)]).getLast?
          = (e0 :: e1 :: rest).getLast?.map (fun e => ⟨e.radius, 0⟩)
        rw [List.getLast?_concat, ← deckLoopGo_snd (cf - 1) (kf - 1) (e1 :: rest) e0 0
          ⟨[], none, none⟩]
        rfl
  · intro rows hne hchain
    match rows, hne, hchain with
    | r0 :: rtl, _, hchain =>
      refine ⟨zeroLast (r0 :: rtl), rfl, ?_, ?_⟩
      · rw [zeroLast_map_radius]
        exact hchain
      · exact zeroLast_last_rho (r0 :: rtl) (List.cons_ne_nil r0 rtl)

/-- Witness for C3: the minimal deck and a concrete two-row table both
produce strictly increasing profiles ending in density 0. -/
theorem c3_profile_invariants_witness :
    (∃ res, deckParse minimalDeck = .ok res ∧
      List.Chain' (· < ·) (res.rows.map Layer.radius) ∧
      res.rows.getLast? = minimalDeck.entries.getLast?.map (fun e => ⟨e.radius, 0⟩)) ∧
    (∃ out, tabParse modelB = some out ∧
      List.Chain' (· < ·) (out.map Layer.radius) ∧
      (out.map Layer.rho).getLast? = some 0) := by
  constructor
  · exact c3_profile_invariants.1 minimalDeck rfl (by norm_num [minimalDeck])
      (by norm_num [minimalDeck, List.chain'_cons, List.chain'_singleton])
  · exact c3_profile_invariants.2 modelB (List.cons_ne_nil _ _)
      (by norm_num [modelB, List.chain'_cons, List.chain'_singleton])

/-! ### Unmatched boundary markers: claim C5 -/

/-- If no equal-radius pair among the remaining entries sits at a loop
index matching a declared marker, the core/crust indices stay
unassigned. -/
lemma deckLoopGo_none (cf kf : Int) :
    ∀ (rest : List Layer) (b : Layer) (i0 : Nat) (s : DeckState),
      s.iCore = none → s.iCrust = none →
      (∀ k, k < rest.length →
        ((b :: rest).getD k ⟨0, 0⟩).radius = ((b :: rest).getD (k + 1) ⟨0, 0⟩).radius →
        (((i0 + k : Nat) : Int) ≠ cf ∧ ((i0 + k : Nat) : Int) ≠ kf)) →
      (deckLoopGo cf kf i0 b rest s).1.iCore = none ∧
      (deckLoopGo cf kf i0 b rest s).1.iCrust = none
  | [], _, _, s, hco, hcr, _ => by
      simp only [deckLoopGo]
      exact ⟨hco, hcr⟩
  | t :: rest, b, i0, s, hco, hcr, h => by
      simp only [deckLoopGo]
      have hstep : (deckStep cf kf i0 b t s).iCore = none ∧
          (deckStep cf kf i0 b t s).iCrust = none := by
        rw [deckStep]
        by_cases he : b.radius = t.radius
        · have hk := h 0 (by simp) (by simpa using he)
          simp only [Nat.add_zero] at hk
          rw [if_pos he]
          exact ⟨by rw [if_neg hk.1]; exact hco, by rw [if_neg hk.2]; exact hcr⟩
        · rw [if_neg he]
          exact ⟨hco, hcr⟩
      refine deckLoopGo_none cf kf rest t (i0 + 1) _ hstep.1 hstep.2 ?_
      intro k hk he
      have e : i0 + 1 + k = i0 + (k + 1) := by omega
      rw [e]
      exact h (k + 1) (by simpa using Nat.succ_lt_succ hk) (by simpa using he)

/-- C5 (amended): when the declared core and crust entry numbers never
coincide with an equal-radius pair, deck parsing does not fail — the
script has no MalformedDeckFile error — and instead succeeds with both
indices left unassigned, to be caught only downstream as an
unbound-variable NameError (or silently replaced by a stale value from
an earlier model). -/
theorem c5_unmatched_markers (d : Deck) (h1 : d.flag = 1) (h2 : 2 ≤ d.entries.length)
    (h : ∀ k, k < d.entries.length - 1 →
      (d.entries.getD k ⟨0, 0⟩).radius = (d.entries.getD (k + 1) ⟨0, 0⟩).radius →
      ((k : Int) ≠ d.coreIndexFile - 1 ∧ (k : Int) ≠ d.crustIndexFile - 1)) :
    ∃ res, deckParse d = .ok res ∧ res.iCore = none ∧ res.iCrust = none := by
  obtain ⟨flag, cf, kf, entries⟩ := d
  simp only at h1 h2 h
  match entries, h2, h with
  | e0 :: e1 :: rest, _, h =>
    have hnone := deckLoopGo_none (cf - 1) (kf - 1) (e1 :: rest) e0 0 ⟨[], none, none⟩ rfl rfl
      (fun k hk he => by
        have := h k (by simpa using Nat.succ_lt_succ hk) he
        simpa using this)
    exact ⟨⟨(deckLoopGo (cf - 1) (kf - 1) 0 e0 (e1 :: rest) ⟨[], none, none⟩).1.rows
        ++ [(⟨(deckLoopGo (cf - 1) (kf - 1) 0 e0 (e1 :: rest) ⟨[], none, none⟩).2.radius, 0⟩
          : Layer)],
      (deckLoopGo (cf - 1) (kf - 1) 0 e0 (e1 :: rest) ⟨[], none, none⟩).1.iCore,
      (deckLoopGo (cf - 1) (kf - 1) 0 e0 (e1 :: rest) ⟨[], none, none⟩).1.iCrust⟩,
      by rw [deckParse, if_neg (fun hne => hne h1)], hnone.1, hnone.2⟩

/-- A deck whose declared core and crust entry numbers (both 5) never
coincide with its single equal-radius pair (at loop index 0). -/
def unmatchedDeck : Deck := ⟨1, 5, 5, [⟨1000, 7000⟩, ⟨1000, 5000⟩, ⟨2000, 3000⟩]⟩

/-- Counterexample to C5 as stated: the deck with unmatched markers
parses successfully with both indices unassigned — no MalformedDeckFile
failure occurs at parse time; only the downstream read of the crust
index aborts the model, as an unbound-variable NameError. -/
theorem c5_counterexample :
    deckParse unmatchedDeck = .ok ⟨[⟨1000, 4000⟩, ⟨2000, 0⟩], none, none⟩ ∧
    deckModelStep 15 (fun _ _ => 0) ⟨none, none, none⟩ unmatchedDeck =
      .error .nameError := by
  constructor
  · norm_num [deckParse, deckLoopGo, deckStep, unmatchedDeck]
  · norm_num [deckModelStep, deckParse, deckLoopGo, deckStep, unmatchedDeck, locate, locateGo,
      readVar, pyGet, pyIndex]

/-- Witness for C5 (amended): the unmatched-marker deck satisfies the
hypotheses and parses to unassigned indices. -/
theorem c5_unmatched_markers_witness :
    ∃ res, deckParse unmatchedDeck = .ok res ∧ res.iCore = none ∧ res.iCrust = none := by
  refine c5_unmatched_markers unmatchedDeck rfl (by norm_num [unmatchedDeck]) ?_
  intro k hk
  norm_num [unmatchedDeck, List.length_cons] at hk
  interval_cases k <;> norm_num [unmatchedDeck, List.getD_cons_zero, List.getD_cons_succ]

/-! ### Negative-index wrap-around: claim C9 -/

/-- The effective numpy position of subscript `-1` on an array extended
by one element is the position of that last element. -/
lemma pyIndex_neg_one (l : List ℚ) (x : ℚ) : pyIndex (l ++ [x]) (0 - 1) = l.length := by
  rw [pyIndex, if_pos (by norm_num)]
  simp only [List.length_append, List.length_cons, List.length_nil]
  push_cast
  ring

/-- A `-1` subscript on a nonempty array wraps to its final entry rather
than failing. -/
lemma pyGet_neg_one (l : List ℚ) (x : ℚ) : pyGet (l ++ [x]) (0 - 1) = .ok x := by
  rw [pyGet, pyIndex_neg_one]
  rw [if_pos ⟨Int.ofNat_nonneg l.length, by
    simp only [List.length_append, List.length_cons, List.length_nil]
    push_cast
    omega⟩]
  congr 1
  rw [Int.toNat_natCast]
  induction l with
  | nil => rfl
  | cons a rest ih => simp only [List.cons_append, List.getD_cons_succ, List.length_cons]; exact ih

/-- C9: the mantle and core densities are read one position below the
recorded boundary index (`rho[i_crust-1]`, `rho[i_core-1]`); when the
recorded index is 0, the `-1` subscript wraps to the last profile row,
whose density the parser forces to 0 — the read succeeds with the
surface density 0 instead of failing out of range. -/
theorem c9_negative_index_wrap (d : Deck) (res : DeckResult)
    (h : deckParse d = .ok res)
    (_h0 : res.iCrust = some 0 ∨ res.iCore = some 0) :
    (res.rows.map Layer.rho).getLast? = some 0 ∧
    pyGet (res.rows.map Layer.rho) ((0 : Int) - 1) = .ok 0 := by
  obtain ⟨pre, rt, hrows⟩ : ∃ pre rt, res.rows = pre ++ [(⟨rt, 0⟩ : Layer)] := by
    rw [deckParse] at h
    by_cases hf : d.flag ≠ 1
    · rw [if_pos hf] at h
      exact absurd h (by simp)
    · rw [if_neg hf] at h
      cases he : d.entries with
      | nil =>
        rw [he] at h
        simp at h
      | cons e0 tl =>
        cases tl with
        | nil =>
          rw [he] at h
          simp at h
        | cons e1 rest =>
          rw [he] at h
          have hr := congrArg DeckResult.rows (Except.ok.inj h)
          exact ⟨_, _, hr.symm⟩
  rw [hrows, List.map_append]
  simp only [List.map_cons, List.map_nil]
  constructor
  · rw [List.getLast?_concat]
  · exact pyGet_neg_one (pre.map Layer.rho) 0

/-- Witness for C9: the minimal deck records crust index 0, and the `-1`
subscript on its density profile `[4000, 0]` yields the surface
density 0. -/
theorem c9_negative_index_wrap_witness :
    (([⟨1000, 4000⟩, ⟨2000, 0⟩] : List Layer).map Layer.rho).getLast? = some 0 ∧
    pyGet (([⟨1000, 4000⟩, ⟨2000, 0⟩] : List Layer).map Layer.rho) ((0 : Int) - 1) = .ok 0 :=
  c9_negative_index_wrap minimalDeck ⟨[⟨1000, 4000⟩, ⟨2000, 0⟩], none, some 0⟩
    (by norm_num [deckParse, deckLoopGo, deckStep, minimalDeck]) (Or.inl rfl)

/-! ### Batch aggregation: claims C7, C8 -/

/-- The source's running-minimum update `if percent < pmin: pmin = percent`
is a `min`. -/
lemma update_min (a p : ℚ) : (if p < a then p else a) = min a p := by
  rcases le_or_lt a p with h | h
  · rw [if_neg (not_lt.mpr h), min_eq_left h]
  · rw [if_pos h, min_eq_right h.le]

/-- The source's running-maximum update `if percent > pmax: pmax = percent`
is a `max`. -/
lemma update_max (a p : ℚ) : (if p > a then p else a) = max a p := by
  rcases le_or_lt p a with h | h
  · rw [if_neg (not_lt.mpr h), max_eq_left h]
  · rw [if_pos h, max_eq_right h.le]

/-- `max` commutes with itself on the right. -/
lemma max_fold_comm (z x y : ℚ) : max (max z x) y = max (max z y) x := by
  rw [max_assoc, max_comm x y, ← max_assoc]

/-- A natural-number subscript within bounds reads the array entry. -/
lemma pyGet_natCast (l : List ℚ) (k : Nat) (hk : k < l.length) :
    pyGet l (k : Int) = .ok (l.getD k 0) := by
  rw [pyGet, pyIndex, if_neg (not_lt.mpr (Int.natCast_nonneg k))]
  rw [if_pos ⟨Int.natCast_nonneg k, by exact_mod_cast hk⟩]
  rw [Int.toNat_natCast]

/-- One successful tabulated-model step: the located index replaces the
carried one and the running min/max absorb the model's percentage. -/
lemma tabStep_success (dLith : ℚ) (f : List Layer → Nat → ℚ) (s : TabState)
    (rows : List Layer) (i : Nat) (hfound : locateFound dLith rows = some i) :
    tabStep dLith f s rows = .ok ⟨some i, min s.pmin (percentOf dLith f rows),
      max s.pmax (percentOf dLith f rows)⟩ := by
  have hp : percentOf dLith f rows = f (zeroLast rows) i := by
    rw [percentOf, hfound]
    rfl
  cases hlast : rows.getLast? with
  | none =>
    simp [locateFound, hlast] at hfound
  | some last =>
    cases hloc : locate (rows.map Layer.radius) (last.radius - dLith) with
    | noBreak =>
      simp [locateFound, hlast, hloc] at hfound
    | indexError =>
      simp [locateFound, hlast, hloc] at hfound
    | found j =>
      have hij : j = i := by
        simpa [locateFound, hlast, hloc] using hfound
      subst hij
      have hbound : j < (rows.map Layer.radius).length := by
        have := locateGo_found_lt (last.radius - dLith) (rows.map Layer.radius) 0 j hloc
        omega
      simp only [tabStep, hlast, hloc, pyGet_natCast _ _ hbound, update_min, update_max, hp]

/-- The whole tabulated batch, when every model locates successfully:
the final carried index is the last model's, and the accumulators are
min/max folds of the per-model percentages over the initial values. -/
lemma tabBatch_success (dLith : ℚ) (f : List Layer → Nat → ℚ) :
    ∀ (models : List (List Layer)) (s : TabState),
      (∀ m ∈ models, (locateFound dLith m).isSome = true) →
      tabBatch dLith f s models =
        .ok ⟨(models.map (locateFound dLith)).foldl (fun _ x => x) s.iLith,
          models.foldl (fun a m => min a (percentOf dLith f m)) s.pmin,
          models.foldl (fun a m => max a (percentOf dLith f m)) s.pmax⟩
  | [], s, _ => by simp [tabBatch]
  | m :: ms, s, h => by
      have hm := h m (List.mem_cons_self m ms)
      obtain ⟨i, hi⟩ := Option.isSome_iff_exists.mp hm
      have hstep := tabStep_success dLith f s m i hi
      have hrec := tabBatch_success dLith f ms
        ⟨some i, min s.pmin (percentOf dLith f m), max s.pmax (percentOf dLith f m)⟩
        (fun m' hm' => h m' (List.mem_cons_of_mem _ hm'))
      simp only [tabBatch, hstep, hrec, List.map_cons, List.foldl_cons, hi]

/-- A fold of a right-commutative update over a list is invariant under
permutations of the list. -/
lemma foldl_comm_perm (op : ℚ → ℚ → ℚ) (hc : ∀ z x y, op (op z x) y = op (op z y) x)
    (g : List Layer → ℚ) {l1 l2 : List (List Layer)} (hperm : l1.Perm l2) :
    ∀ a : ℚ, l1.foldl (fun a m => op a (g m)) a = l2.foldl (fun a m => op a (g m)) a := by
  induction hperm with
  | nil => exact fun _ => rfl
  | cons x p ih =>
      intro a
      simp only [List.foldl_cons]
      exact ih _
  | swap x y l =>
      intro a
      simp only [List.foldl_cons]
      rw [hc]
  | trans p1 p2 ih1 ih2 =>
      intro a
      rw [ih1, ih2]

/-- Counterexample to C7 as stated: with a single model whose stub
percentage is 120, the evaluator reports `pmin = 100` — the initial
accumulator, not the smallest percentage 120 — because `pmin` starts at
100 and only decreases. -/
theorem c7_counterexample :
    evaluate 15 (fun _ _ => 120) [modelA] = .ok ⟨some 1, 100, 120⟩ ∧ (100 : ℚ) ≠ 120 := by
  constructor
  · norm_num [evaluate, tabBatch, tabStep, locate, locateGo, zeroLast, pyGet, pyIndex, modelA]
  · norm_num

/-- C7 (amended): when every model of the batch admits a located index,
the evaluator reports `pmin` as the fold of `min` over the per-model
percentages starting from the initial accumulator 100, and `pmax` as the
fold of `max` starting from 0 — these equal the true smallest and
largest percentages only when those lie within the accumulators' initial
range — and the reported pair is identical for every iteration order of
the inputs. -/
theorem c7_batch_min_max (dLith : ℚ) (f : List Layer → Nat → ℚ)
    (models : List (List Layer))
    (h : ∀ m ∈ models, (locateFound dLith m).isSome = true) :
    evaluate dLith f models =
      .ok ⟨(models.map (locateFound dLith)).foldl (fun _ x => x) none,
        models.foldl (fun a m => min a (percentOf dLith f m)) 100,
        models.foldl (fun a m => max a (percentOf dLith f m)) 0⟩ ∧
    ∀ models2 : List (List Layer), models.Perm models2 →
      models2.foldl (fun a m => min a (percentOf dLith f m)) 100 =
        models.foldl (fun a m => min a (percentOf dLith f m)) 100 ∧
      models2.foldl (fun a m => max a (percentOf dLith f m)) 0 =
        models.foldl (fun a m => max a (percentOf dLith f m)) 0 := by
  constructor
  · exact tabBatch_success dLith f models ⟨none, 100, 0⟩ h
  · intro models2 hperm
    constructor
    · exact (foldl_comm_perm min (fun z x y => min_right_comm z x y)
        (percentOf dLith f) hperm 100).symm
    · exact (foldl_comm_perm max max_fold_comm (percentOf dLith f) hperm 0).symm

/-- A tabulated model whose uniform density `p` is what the demo stub
reports as its percentage. -/
def demoModel (p : ℚ) : List Layer := [⟨0, p⟩, ⟨10, p⟩, ⟨20, p⟩, ⟨30, p⟩]

/-- A collaborator stub returning, for each model, its first density. -/
def demoStub : List Layer → Nat → ℚ := fun rows _ => (rows.headD ⟨0, 0⟩).rho

/-- Witness for C7 (amended): stub percentages 10, 55, 80 give
`min = 10` and `max = 80`. -/
theorem c7_batch_min_max_witness :
    evaluate 15 demoStub [demoModel 10, demoModel 55, demoModel 80] =
      .ok ⟨some 1, 10, 80⟩ := by
  have h := (c7_batch_min_max 15 demoStub [demoModel 10, demoModel 55, demoModel 80]
    (by norm_num [locateFound, locate, locateGo, demoModel])).1
  rw [h]
  norm_num [percentOf, locateFound, locate, locateGo, zeroLast, demoStub, demoModel,
    min_def, max_def]

/-- C8: the located shell index is loop-carried and never reset between
models. On the batch `[modelA, modelB]`, where `modelB` admits no
bracketing pair for the target depth, the evaluator raises no error and
passes `modelA`'s located index 1 to the external collaborator for
`modelB` (visible through the index-reporting stub); with `modelB` alone,
the first model's read of the never-assigned index is an unbound-variable
NameError. -/
theorem c8_loop_carried_stale_index :
    locateFound 15 modelA = some 1 ∧
    locateFound 15 modelB = none ∧
    evaluate 15 (fun _ i => (i : ℚ)) [modelA, modelB] = .ok ⟨some 1, 1, 1⟩ ∧
    evaluate 15 (fun _ i => (i : ℚ)) [modelB] = .error .nameError := by
  refine ⟨?_, ?_, ?_, ?_⟩ <;>
    norm_num [locateFound, locate, locateGo, evaluate, tabBatch, tabStep, zeroLast,
      pyGet, pyIndex, modelA, modelB]
